import Mathlib

/-!
Verification of the segment-timeline indexing engine of rx-player
(`src/parsers/manifest/dash/indexes/timeline.ts`).

JavaScript numbers are embedded as rationals (`ℚ`): every value produced by
the code paths under study is the result of field arithmetic on parsed
numbers, and `NaN` is not representable in `ℚ`, so the source's `isNaN`
guards are identically false in the embedding (each such spot is noted).
Optional (possibly `undefined`/`null`) values are embedded as `Option`.
-/

/-- Embeds a parsed `S` node (`ITimelineIndexIndexArgument.timeline` element,
timeline.ts lines 77-79): `start?`, `duration?` and `repeatCount?` are all
optional numbers. -/
structure RawS where
  start : Option ℚ
  duration : Option ℚ
  repeatCount : Option ℚ
deriving DecidableEq, Repr

/-- Embeds `IIndexSegment` (from the index-helpers module): a normalized
timeline entry with required `start`, `duration` (the value `-1` meaning
open-ended) and `repeatCount` fields. -/
structure IIndexSegment where
  start : ℚ
  duration : ℚ
  repeatCount : ℚ
deriving DecidableEq, Repr

instance : Inhabited IIndexSegment := ⟨⟨0, 0, 0⟩⟩

/-- Modelled from the spec: the initialization-segment descriptor kept in the
index state (URL plus optional byte range); `get_init_segment.ts` is not part
of the sources under study. -/
structure InitializationInfo where
  mediaURL : String
  range : Option (ℕ × ℕ)
deriving DecidableEq, Repr

/-- Embeds `ITimelineIndex` (timeline.ts lines 42-68): the `IndexState`
aggregating the timescale, index-time offset, URLs and the normalized
timeline. -/
structure ITimelineIndex where
  indexRange : Option (ℕ × ℕ)
  indexTimeOffset : ℚ
  initialization : Option InitializationInfo
  mediaURL : String
  startNumber : Option ℕ
  timeline : List IIndexSegment
  timescale : ℚ
deriving DecidableEq, Repr

/-- Embeds the mutable state of the `TimelineRepresentationIndex` class
(timeline.ts lines 198-213) together with its two external collaborators:
`minimumBound` models `manifestBoundsCalculator.getMinimumBound()` (`none`
when the bound is unknown) and `now` models the wall clock read by
`performance.now()`, in milliseconds. -/
structure TimelineRepresentationIndex where
  index : ITimelineIndex
  lastUpdate : ℚ
  scaledPeriodStart : ℚ
  scaledPeriodEnd : Option ℚ
  isDynamic : Bool
  minimumBound : Option ℚ
  now : ℚ
deriving DecidableEq, Repr

/-- Modelled from the spec: `toIndexTime` of the index-helpers module (not
under the sources studied) converts seconds to index time:
`T * timescale + indexTimeOffset` (also documented at timeline.ts
lines 51-55). -/
def toIndexTime (time : ℚ) (index : ITimelineIndex) : ℚ :=
  time * index.timescale + index.indexTimeOffset

/-- Modelled from the spec: `fromIndexTime` of the index-helpers module, the
inverse conversion from index time to seconds. -/
def fromIndexTime (time : ℚ) (index : ITimelineIndex) : ℚ :=
  (time - index.indexTimeOffset) / index.timescale

/-- The largest finite JavaScript number (`Number.MAX_VALUE`), standing for
the "unbounded" entry end of the spec. -/
def numberMaxValue : ℚ := 2 ^ 1024 - 2 ^ 971

/-- Modelled from the spec: `getIndexSegmentEnd` of the index-helpers module.
For a concrete duration the end is `start + duration * (repeatCount + 1)`;
for the open-ended sentinel `-1` it is the next entry's start if one exists,
else the period end bound if known, else unbounded (`numberMaxValue`). -/
def getIndexSegmentEnd (segment : IIndexSegment) (nextSegment : Option IIndexSegment)
    (maxPosition : Option ℚ) : ℚ :=
  if segment.duration = -1 then
    match nextSegment with
    | some n => n.start
    | none =>
      match maxPosition with
      | some m => m
      | none => numberMaxValue
  else segment.start + segment.duration * (segment.repeatCount + 1)

/-- The interval end `start + duration * (repeatCount + 1)` of an entry, as
used by the spec's non-overlap invariant. -/
def entryEnd (e : IIndexSegment) : ℚ :=
  e.start + e.duration * (e.repeatCount + 1)

/-- Embeds the `start` resolution of `fromParsedSToIndexSegment`
(timeline.ts lines 135-145). `previousItem.duration` has the non-nullable
type `number`, so the source's defensive `previousItem.duration != null`
check always passes; consequently a missing start is always resolved. -/
def resolveStart (item : RawS) (previousItem : Option IIndexSegment)
    (timelineStart : ℚ) : Option ℚ :=
  match item.start with
  | some s => some s
  | none =>
    match previousItem with
    | none => some timelineStart
    | some prev => some (prev.start + prev.duration * (prev.repeatCount + 1))

/-- Embeds `fromParsedSToIndexSegment` (timeline.ts lines 129-163). The
`isNaN` guards of the source are identically false over `ℚ` and are omitted;
`repeatCount` defaults to `0` when absent. -/
def fromParsedSToIndexSegment (item : RawS) (previousItem : Option IIndexSegment)
    (nextItem : Option RawS) (timelineStart : ℚ) : Option IIndexSegment :=
  match resolveStart item previousItem timelineStart with
  | none => none
  | some s =>
    match item.duration with
    | some d => some ⟨s, d, item.repeatCount.getD 0⟩
    | none =>
      match nextItem with
      | some n =>
        match n.start with
        | some ns => some ⟨s, ns - s, item.repeatCount.getD 0⟩
        | none => none
      | none => none

/-- Embeds the constructor's normalization loop (timeline.ts lines 239-256):
each raw entry is resolved against the previously accepted entry and the next
raw entry; unresolvable entries are dropped. -/
def mkTimelineAux (scaledStart : ℚ) : Option IIndexSegment → List RawS → List IIndexSegment
  | _, [] => []
  | prev, item :: rest =>
    match fromParsedSToIndexSegment item prev rest.head? scaledStart with
    | some e => e :: mkTimelineAux scaledStart (some e) rest
    | none => mkTimelineAux scaledStart prev rest

/-- The normalized timeline built by the constructor from the raw `S` list
and the scaled period start. -/
def mkTimeline (raw : List RawS) (scaledStart : ℚ) : List IIndexSegment :=
  mkTimelineAux scaledStart none raw

/-- Embeds the `TimelineRepresentationIndex` constructor (timeline.ts
lines 219-286). URL token substitution (`createIndexURL`) is outside the
studied sources; the media URL is taken as given. -/
def mkTimelineRepresentationIndex (timelineArg : List RawS) (timescale : ℚ)
    (presentationTimeOffset : Option ℚ) (indexRange : Option (ℕ × ℕ))
    (initialization : Option InitializationInfo) (mediaURL : String)
    (startNumber : Option ℕ) (periodStart : ℚ) (periodEnd : Option ℚ)
    (isDynamic : Bool) (receivedTime : ℚ) (minimumBound : Option ℚ)
    (now : ℚ) : TimelineRepresentationIndex :=
  let pto := presentationTimeOffset.getD 0
  let scaledStart := periodStart * timescale
  let index : ITimelineIndex :=
    { indexRange := indexRange
      indexTimeOffset := pto - scaledStart
      initialization := initialization
      mediaURL := mediaURL
      startNumber := startNumber
      timeline := mkTimeline timelineArg scaledStart
      timescale := timescale }
  { index := index
    lastUpdate := receivedTime
    scaledPeriodStart := toIndexTime periodStart index
    scaledPeriodEnd := periodEnd.map (fun pe => toIndexTime pe index)
    isDynamic := isDynamic
    minimumBound := minimumBound
    now := now }

example :
    mkTimeline [⟨some 0, some 10, some 2⟩, ⟨none, some 5, none⟩] 0 =
      [⟨0, 10, 2⟩, ⟨30, 5, 0⟩] := by
  simp [mkTimeline, mkTimelineAux, fromParsedSToIndexSegment, resolveStart]
  norm_num

example :
    mkTimeline [⟨some 10, some 1, none⟩, ⟨some 0, some 1, none⟩] 0 =
      [⟨10, 1, 0⟩, ⟨0, 1, 0⟩] := by
  simp [mkTimeline, mkTimelineAux, fromParsedSToIndexSegment, resolveStart]

example :
    fromParsedSToIndexSegment ⟨none, some 5, none⟩ (some ⟨0, -1, 0⟩) none 0 =
      some ⟨-1, 5, 0⟩ := by
  simp [fromParsedSToIndexSegment, resolveStart]

/-- Modelled from the spec: `clearTimelineFromPosition` (the eviction pass of
§4.3, not under the sources studied) prunes every timeline entry that has
fully expired before the cutoff, preserving order and keeping any entry that
still straddles the cutoff; open-ended entries never fully expire. -/
def entryExpired (e : IIndexSegment) (cutoff : ℚ) : Bool :=
  e.duration ≠ -1 && e.start + e.duration * (e.repeatCount + 1) ≤ cutoff

/-- Modelled from the spec: the eviction pass over a timeline (see
`entryExpired`). -/
def clearTimelineFromPosition (timeline : List IIndexSegment) (cutoff : ℚ) :
    List IIndexSegment :=
  timeline.filter (fun e => ! entryExpired e cutoff)

/-- Embeds `_refreshTimeline` (timeline.ts lines 502-509): when the bounds
collaborator knows the minimum bound, convert it to index time and evict
expired entries; otherwise leave the state untouched. -/
def refreshTimeline (st : TimelineRepresentationIndex) : TimelineRepresentationIndex :=
  match st.minimumBound with
  | none => st
  | some firstPosition =>
    { st with index := { st.index with timeline := clearTimelineFromPosition st.index.timeline (toIndexTime firstPosition st.index) } }

/-- Embeds the binary-search loop of `getSegmentIndex` (timeline.ts
lines 174-184); `mid = (low + high) >>> 1` is natural-number halving. The
loop terminates because `high - low` shrinks at every step. -/
def lbLoop (tl : List IIndexSegment) (target : ℚ) (low high : ℕ) : ℕ :=
  if h : low < high then
    if (tl.getD ((low + high) / 2) default).start < target then
      lbLoop tl target ((low + high) / 2 + 1) high
    else
      lbLoop tl target low ((low + high) / 2)
  else low
termination_by high - low
decreasing_by
  · omega
  · omega

/-- Embeds `getSegmentIndex` (timeline.ts lines 171-188): the floor search
returning the index of the entry containing the given index-time. -/
def getSegmentIndex (index : ITimelineIndex) (start : ℚ) : ℕ :=
  let r := lbLoop index.timeline start 0 index.timeline.length
  if r > 0 then r - 1 else r

/-- Embeds the body of `checkDiscontinuity` after its `_refreshTimeline` call
(timeline.ts lines 400-438). The source's `segmentIndex < 0` guard cannot
fire (the search returns a non-negative integer); the `length - 1` guard is
over the integers as in JavaScript. -/
def coreCheckDiscontinuity (st : TimelineRepresentationIndex) (time : ℚ) : ℚ :=
  if toIndexTime time st.index ≤ 0 then -1
  else if ((getSegmentIndex st.index (toIndexTime time st.index) : ℤ) ≥
           (st.index.timeline.length : ℤ) - 1) then -1
  else
    match st.index.timeline.get? (getSegmentIndex st.index (toIndexTime time st.index)) with
    | none => -1
    | some timelineItem =>
      if timelineItem.duration = -1 then -1
      else
        match st.index.timeline.get? (getSegmentIndex st.index (toIndexTime time st.index) + 1) with
        | none => -1
        | some nextTimelineItem =>
          if getIndexSegmentEnd timelineItem (some nextTimelineItem) st.scaledPeriodEnd
                < nextTimelineItem.start ∧
              toIndexTime time st.index ≥ timelineItem.start ∧
              getIndexSegmentEnd timelineItem (some nextTimelineItem) st.scaledPeriodEnd
                - toIndexTime time st.index < st.index.timescale
          then fromIndexTime nextTimelineItem.start st.index
          else -1

/-- Embeds `checkDiscontinuity` (timeline.ts lines 398-439) as a state
transformer: the eviction pass runs first, then the body reads the refreshed
state. -/
def checkDiscontinuityS (st : TimelineRepresentationIndex) (time : ℚ) :
    TimelineRepresentationIndex × ℚ :=
  (refreshTimeline st, coreCheckDiscontinuity (refreshTimeline st) time)

/-- The value returned by `checkDiscontinuity`. -/
def checkDiscontinuity (st : TimelineRepresentationIndex) (time : ℚ) : ℚ :=
  (checkDiscontinuityS st time).2

/-- Embeds `_getTheoriticalLastPosition` (timeline.ts lines 516-537):
extrapolates the last position of a dynamic index from the elapsed wall-clock
time since the last update (`Math.floor` is `Int.floor` over `ℚ`). -/
def getTheoriticalLastPosition (st : TimelineRepresentationIndex) : Option ℚ :=
  match st.index.timeline.getLast? with
  | none => none
  | some lastTimelineElement =>
    if st.isDynamic = false then
      some (getIndexSegmentEnd lastTimelineElement none st.scaledPeriodEnd)
    else
      if (st.now - st.lastUpdate) / 1000 * st.index.timescale <
          lastTimelineElement.duration then
        some (getIndexSegmentEnd lastTimelineElement none st.scaledPeriodEnd)
      else
        some ((⌊(st.now - st.lastUpdate) / 1000 * st.index.timescale /
                 lastTimelineElement.duration⌋ : ℚ) *
              lastTimelineElement.duration +
              getIndexSegmentEnd lastTimelineElement none st.scaledPeriodEnd)

/-- Embeds the body of `shouldRefresh` after its `_refreshTimeline` call
(timeline.ts lines 318-337). -/
def coreShouldRefresh (st : TimelineRepresentationIndex)
    (_upSeconds toSeconds : ℚ) : Bool :=
  if st.isDynamic = false then false
  else
    match st.index.timeline.getLast? with
    | none => true
    | some lastTimelineElt =>
      if toSeconds * st.index.timescale <
          getIndexSegmentEnd lastTimelineElt none st.scaledPeriodEnd then false
      else
        match getTheoriticalLastPosition st with
        | none => true
        | some p =>
          decide (getIndexSegmentEnd lastTimelineElt none st.scaledPeriodEnd < p)

/-- Embeds `shouldRefresh` (timeline.ts lines 316-337) as a state
transformer: the eviction pass runs first. -/
def shouldRefreshS (st : TimelineRepresentationIndex) (upSeconds toSeconds : ℚ) :
    TimelineRepresentationIndex × Bool :=
  (refreshTimeline st, coreShouldRefresh (refreshTimeline st) upSeconds toSeconds)

/-- The value returned by `shouldRefresh`. -/
def shouldRefresh (st : TimelineRepresentationIndex) (upSeconds toSeconds : ℚ) : Bool :=
  (shouldRefreshS st upSeconds toSeconds).2

/-- Embeds `getFirstPosition` (timeline.ts lines 345-351) as a state
transformer: the eviction pass runs first. -/
def getFirstPositionS (st : TimelineRepresentationIndex) :
    TimelineRepresentationIndex × Option ℚ :=
  (refreshTimeline st,
    match (refreshTimeline st).index.timeline.head? with
    | none => none
    | some e => some (fromIndexTime e.start (refreshTimeline st).index))

/-- Embeds `getLastPosition` (timeline.ts lines 359-370) as a state
transformer: the eviction pass runs first. -/
def getLastPositionS (st : TimelineRepresentationIndex) :
    TimelineRepresentationIndex × Option ℚ :=
  (refreshTimeline st,
    match (refreshTimeline st).index.timeline.getLast? with
    | none => none
    | some lastTimelineElement =>
      some (fromIndexTime
        (getIndexSegmentEnd lastTimelineElement none (refreshTimeline st).scaledPeriodEnd)
        (refreshTimeline st).index))

/-- Embeds `getInitSegment` (timeline.ts lines 292-294): it does not invoke
`_refreshTimeline`, so the state is returned untouched; the result is the
initialization descriptor held by the index state (the full `ISegment`
construction of `get_init_segment.ts` is outside the sources studied). -/
def getInitSegmentS (st : TimelineRepresentationIndex) :
    TimelineRepresentationIndex × Option InitializationInfo :=
  (st, st.index.initialization)

/-- Embeds `isFinished` (timeline.ts lines 480-496): a static index is always
finished; a dynamic one is finished only when the period end is known, the
timeline is non-empty and the last entry's end reaches the scaled period end
up to a `1/60` tolerance. It does not invoke `_refreshTimeline`. -/
def isFinished (st : TimelineRepresentationIndex) : Bool :=
  if st.isDynamic = false then true
  else
    match st.scaledPeriodEnd, st.index.timeline.getLast? with
    | some pe, some lastTimelineElement =>
      decide (getIndexSegmentEnd lastTimelineElement none st.scaledPeriodEnd
                + 1 / 60 ≥ pe)
    | _, _ => false

/-- `isFinished` as a state transformer: no eviction pass, state untouched. -/
def isFinishedS (st : TimelineRepresentationIndex) :
    TimelineRepresentationIndex × Bool :=
  (st, isFinished st)

/-- Modelled from the spec: the error interface consumed by
`canBeOutOfSyncError` (the errors module is outside the sources studied); an
error either is a network-layer error carrying an HTTP status, or is some
other error. -/
inductive ICustomError where
  | networkError (httpStatus : ℤ)
  | otherError
deriving DecidableEq, Repr

/-- Embeds `canBeOutOfSyncError` (timeline.ts lines 445-451). -/
def canBeOutOfSyncError (st : TimelineRepresentationIndex)
    (error : ICustomError) : Bool :=
  if st.isDynamic = false then false
  else
    match error with
    | ICustomError.networkError s => decide (s = 404)
    | ICustomError.otherError => false

/-- A timeline is sorted strictly ascending by entry start. -/
def timelineSorted (tl : List IIndexSegment) : Prop :=
  List.Pairwise (fun a b => a.start < b.start) tl

/-- The intervals `[start, start + duration * (repeatCount + 1))` covered by
the entries are pairwise non-overlapping. -/
def timelineNonOverlapping (tl : List IIndexSegment) : Prop :=
  List.Pairwise (fun a b => entryEnd a ≤ b.start ∨ entryEnd b ≤ a.start) tl

/-- A well-formed raw entry: declared start, declared positive duration, and
a non-negative repeat count when one is declared. -/
def goodRaw (r : RawS) : Prop :=
  r.start.isSome = true ∧ r.duration.isSome = true ∧
    0 < r.duration.getD 0 ∧ 0 ≤ r.repeatCount.getD 0

/-- The entry a fully declared raw entry resolves to. -/
def resolveFull (r : RawS) : IIndexSegment :=
  ⟨r.start.getD 0, r.duration.getD 0, r.repeatCount.getD 0⟩

/-- A plain index state used for concrete evaluations. -/
def mkIdx (tl : List IIndexSegment) (ts off : ℚ) : ITimelineIndex :=
  { indexRange := none, indexTimeOffset := off, initialization := none,
    mediaURL := "", startNumber := none, timeline := tl, timescale := ts }

/-- A plain facade state used for concrete evaluations. -/
def mkSt (tl : List IIndexSegment) (ts off : ℚ) (pe : Option ℚ) (dyn : Bool)
    (mb : Option ℚ) (lu nowMs : ℚ) : TimelineRepresentationIndex :=
  { index := mkIdx tl ts off, lastUpdate := lu, scaledPeriodStart := 0,
    scaledPeriodEnd := pe, isDynamic := dyn, minimumBound := mb, now := nowMs }

/-- Dynamic facade with one entry `{start 0, duration 4, repeatCount 0}` at
timescale 1, 9 seconds of wall-clock time after the last update (claims C4
and C5). -/
def stC4 : TimelineRepresentationIndex := mkSt [⟨0, 4, 0⟩] 1 0 none true none 0 9000

/-- Facade whose eviction pass would drop its only (expired) entry (claim
C6). -/
def stC6 : TimelineRepresentationIndex := mkSt [⟨0, 1, 0⟩] 1 0 none true (some 100) 0 0

/-- Dynamic facade whose last entry ends 90 index-time units past the scaled
period end (claim C8). -/
def stC8 : TimelineRepresentationIndex := mkSt [⟨0, 100, 0⟩] 1 0 (some 10) true none 0 0

/-- Dynamic facade with entries `[0,5)` and `[20,25)` at timescale 1 (claims
C3 and C10 witnesses). -/
def stC3w : TimelineRepresentationIndex := mkSt [⟨0, 5, 0⟩, ⟨20, 5, 0⟩] 1 0 none true none 0 0

/-- Index with entry starts `0` and `10` (claim C7). -/
def idxC7 : ITimelineIndex := mkIdx [⟨0, 1, 0⟩, ⟨10, 1, 0⟩] 1 0

/-- Index with an empty timeline (claim C10). -/
def idxEmpty : ITimelineIndex := mkIdx [] 1 0

/-- Eviction never changes the dynamic flag. -/
lemma refreshTimeline_isDynamic (st : TimelineRepresentationIndex) :
    (refreshTimeline st).isDynamic = st.isDynamic := by
  cases h : st.minimumBound <;> simp [refreshTimeline, h]

/-- Eviction never lengthens the timeline. -/
lemma refreshTimeline_length_le (st : TimelineRepresentationIndex) :
    (refreshTimeline st).index.timeline.length ≤ st.index.timeline.length := by
  cases h : st.minimumBound with
  | none => simp [refreshTimeline, h]
  | some fp =>
    simp only [refreshTimeline, h, clearTimelineFromPosition]
    exact List.length_filter_le _ _

/-- C2 (amended): when a raw entry declares no start, the start is always
resolved: to the period's scaled start when there is no previous resolved
entry, and otherwise to
`previous.start + previous.duration * (previous.repeatCount + 1)` — even
when the previous duration is the open-ended sentinel `-1`. -/
theorem C2_start_resolution (item : RawS) (prev : Option IIndexSegment) (ts : ℚ)
    (h : item.start = none) :
    resolveStart item prev ts =
      some (match prev with
            | none => ts
            | some p => p.start + p.duration * (p.repeatCount + 1)) := by
  cases prev <;> simp [resolveStart, h]

/-- C2 witness: a concrete instantiation of `C2_start_resolution`. -/
theorem C2_witness :
    (RawS.mk none (some 5) none).start = none ∧
      resolveStart ⟨none, some 5, none⟩ (some ⟨0, -1, 0⟩) 0 = some (-1) := by
  refine ⟨rfl, ?_⟩
  have h := C2_start_resolution ⟨none, some 5, none⟩ (some ⟨0, -1, 0⟩) 0 rfl
  rw [h]
  norm_num

/-- C2 counterexample: after a previous resolved entry with the open-ended
duration `-1`, the missing start is computed from that sentinel duration
(resolving to `0 + (-1) * (0 + 1) = -1`) and the entry is accepted — it does
not remain unresolved as the claim states. -/
theorem C2_counterexample :
    resolveStart ⟨none, some 10, none⟩ (some ⟨0, -1, 0⟩) 0 = some (-1) ∧
      fromParsedSToIndexSegment ⟨none, some 10, none⟩ (some ⟨0, -1, 0⟩) none 0 =
        some ⟨-1, 10, 0⟩ := by
  constructor
  · simp [resolveStart]
  · simp [fromParsedSToIndexSegment, resolveStart]

/-- C4 (amended): in the claim's scenario the theoretical last position is
`12` — the last entry's end `4` plus `floor(9/4) = 2` extrapolated segments
of duration `4` — and both `shouldRefresh(_, 7)` and `shouldRefresh(_, 9)`
return `true`. -/
theorem C4_extrapolation_scenario :
    getTheoriticalLastPosition stC4 = some 12 ∧
      shouldRefresh stC4 0 7 = true ∧ shouldRefresh stC4 0 9 = true := by
  refine ⟨?_, ?_, ?_⟩
  · simp [getTheoriticalLastPosition, stC4, mkSt, mkIdx, getIndexSegmentEnd]
    norm_num
  · simp [shouldRefresh, shouldRefreshS, coreShouldRefresh, refreshTimeline, stC4, mkSt,
      mkIdx, getTheoriticalLastPosition, getIndexSegmentEnd]
    norm_num
  · simp [shouldRefresh, shouldRefreshS, coreShouldRefresh, refreshTimeline, stC4, mkSt,
      mkIdx, getTheoriticalLastPosition, getIndexSegmentEnd]
    norm_num

/-- C4 counterexample: in the claim's scenario the theoretical last position
is `12`, not `8`, and `shouldRefresh(_, 7)` returns `true`, not `false`. -/
theorem C4_counterexample :
    getTheoriticalLastPosition stC4 = some 12 ∧
      (some (12 : ℚ) ≠ some (8 : ℚ)) ∧ shouldRefresh stC4 0 7 = true := by
  refine ⟨?_, by norm_num, ?_⟩
  · simp [getTheoriticalLastPosition, stC4, mkSt, mkIdx, getIndexSegmentEnd]
    norm_num
  · simp [shouldRefresh, shouldRefreshS, coreShouldRefresh, refreshTimeline, stC4, mkSt,
      mkIdx, getTheoriticalLastPosition, getIndexSegmentEnd]
    norm_num

/-- C5 (amended): for a dynamic index with a non-empty (post-eviction)
timeline, `shouldRefresh` returns `false` whenever `toSeconds` multiplied by
the timescale (the index-time offset is not applied here) falls strictly
before the end of the last timeline entry. -/
theorem C5_shouldRefresh_false_below_end (st : TimelineRepresentationIndex)
    (upSeconds toSeconds : ℚ) (lastCut : IIndexSegment)
    (hd : st.isDynamic = true)
    (hl : (refreshTimeline st).index.timeline.getLast? = some lastCut)
    (hlt : toSeconds * (refreshTimeline st).index.timescale <
        getIndexSegmentEnd lastCut none (refreshTimeline st).scaledPeriodEnd) :
    shouldRefresh st upSeconds toSeconds = false := by
  have hdyn : (refreshTimeline st).isDynamic = true := by
    rw [refreshTimeline_isDynamic, hd]
  unfold shouldRefresh shouldRefreshS coreShouldRefresh
  rw [hdyn, hl]
  simp only [Bool.true_eq_false, if_false]
  rw [if_pos hlt]

/-- C5 witness: a concrete instantiation of
`C5_shouldRefresh_false_below_end`. -/
theorem C5_witness :
    stC4.isDynamic = true ∧ shouldRefresh stC4 0 3 = false := by
  refine ⟨rfl, ?_⟩
  refine C5_shouldRefresh_false_below_end stC4 0 3 ⟨0, 4, 0⟩ rfl rfl ?_
  simp [refreshTimeline, stC4, mkSt, mkIdx, getIndexSegmentEnd]
  norm_num

/-- C5 counterexample: with the last entry ending exactly at
`toSeconds * timescale` (at or before the end, as the claim reads),
`shouldRefresh` returns `true`, not `false`: the source compares with a
strict `<`. -/
theorem C5_counterexample :
    getIndexSegmentEnd ⟨0, 4, 0⟩ none stC4.scaledPeriodEnd = 4 ∧
      shouldRefresh stC4 0 4 = true := by
  constructor
  · simp [getIndexSegmentEnd, stC4, mkSt]
    norm_num
  · simp [shouldRefresh, shouldRefreshS, coreShouldRefresh, refreshTimeline, stC4, mkSt,
      mkIdx, getTheoriticalLastPosition, getIndexSegmentEnd]
    norm_num

/-- C6 (amended): `getSegments`-style query operations — `checkDiscontinuity`,
`shouldRefresh`, `getFirstPosition`, `getLastPosition` — perform the eviction
pass first and operate on the refreshed state, while `getInitSegment` and
`isFinished` do not perform it and leave the state untouched. -/
theorem C6_eviction_pass_coverage (st : TimelineRepresentationIndex)
    (time upSeconds toSeconds : ℚ) :
    (checkDiscontinuityS st time).1 = refreshTimeline st ∧
      (shouldRefreshS st upSeconds toSeconds).1 = refreshTimeline st ∧
      (getFirstPositionS st).1 = refreshTimeline st ∧
      (getLastPositionS st).1 = refreshTimeline st ∧
      (getInitSegmentS st).1 = st ∧
      (isFinishedS st).1 = st :=
  ⟨rfl, rfl, rfl, rfl, rfl, rfl⟩

/-- C6 counterexample: neither `getInitSegment` nor `isFinished` performs
the eviction pass — both leave the state untouched even on a state the
eviction pass would change. -/
theorem C6_counterexample :
    (getInitSegmentS stC6).1 = stC6 ∧ (isFinishedS stC6).1 = stC6 ∧
      refreshTimeline stC6 ≠ stC6 := by
  refine ⟨rfl, rfl, ?_⟩
  simp [refreshTimeline, stC6, mkSt, mkIdx, clearTimelineFromPosition, entryExpired,
    toIndexTime]
  norm_num

/-- C8 (amended): `isFinished` is `true` for a static index; for a dynamic
index it is `false` when the period end is unknown or the timeline is empty,
and otherwise `true` iff the last entry's computed end reaches the scaled
period end up to a one-sided tolerance of `1/60` of an index-time unit (an
end exceeding the period end by any amount also yields `true`). -/
theorem C8_isFinished_characterization (st : TimelineRepresentationIndex) :
    (st.isDynamic = false → isFinished st = true) ∧
      (st.isDynamic = true → st.scaledPeriodEnd = none → isFinished st = false) ∧
      (st.isDynamic = true → st.index.timeline = [] → isFinished st = false) ∧
      (∀ pe lastElt, st.isDynamic = true → st.scaledPeriodEnd = some pe →
        st.index.timeline.getLast? = some lastElt →
        (isFinished st = true ↔
          pe ≤ getIndexSegmentEnd lastElt none (some pe) + 1 / 60)) := by
  refine ⟨?_, ?_, ?_, ?_⟩
  · intro h
    simp [isFinished, h]
  · intro h hpe
    simp [isFinished, h, hpe]
  · intro h htl
    simp [isFinished, h, htl]
  · intro pe lastElt h hpe hlast
    rw [isFinished, h, hpe, hlast]
    simp [ge_iff_le]

/-- C8 witness: a concrete instantiation of `C8_isFinished_characterization`:
a dynamic index whose single entry ends exactly at the scaled period end is
finished. -/
theorem C8_witness :
    isFinished (mkSt [⟨0, 10, 0⟩] 1 0 (some 10) true none 0 0) = true := by
  refine ((C8_isFinished_characterization
      (mkSt [⟨0, 10, 0⟩] 1 0 (some 10) true none 0 0)).2.2.2 10 ⟨0, 10, 0⟩
      rfl rfl rfl).mpr ?_
  simp [getIndexSegmentEnd]

/-- C8 counterexample: a dynamic index whose last entry ends 90 units (90
seconds at timescale 1) past the scaled period end — not within one sixtieth
of a second of it — still reports `isFinished = true`: the source tolerance
is one-sided. -/
theorem C8_counterexample :
    isFinished stC8 = true ∧
      ¬ |getIndexSegmentEnd ⟨0, 100, 0⟩ none (some 10) - 10| ≤ 1 / 60 := by
  constructor
  · simp [isFinished, stC8, mkSt, mkIdx, getIndexSegmentEnd]
    norm_num
  · simp [getIndexSegmentEnd]
    norm_num

/-- C9 (confirmed): `canBeOutOfSyncError` returns `false` for every error on
a static index, and on a dynamic index returns `true` exactly for a
network-layer error carrying HTTP status 404. -/
theorem C9_canBeOutOfSyncError_iff (st : TimelineRepresentationIndex)
    (error : ICustomError) :
    canBeOutOfSyncError st error = true ↔
      st.isDynamic = true ∧ error = ICustomError.networkError 404 := by
  cases error with
  | networkError s =>
    cases hd : st.isDynamic <;> simp [canBeOutOfSyncError, hd]
  | otherError =>
    cases hd : st.isDynamic <;> simp [canBeOutOfSyncError, hd]

/-- C10 (confirmed): with fewer than two timeline entries every query returns
the no-discontinuity sentinel `-1` (the guard fires before any entry access),
and the floor search returns `0` on an empty timeline. -/
theorem C10_short_timeline_no_discontinuity :
    (∀ st : TimelineRepresentationIndex, ∀ time : ℚ,
        st.index.timeline.length < 2 → checkDiscontinuity st time = -1) ∧
      (∀ index : ITimelineIndex, ∀ target : ℚ,
        index.timeline = [] → getSegmentIndex index target = 0) := by
  constructor
  · intro st time h
    have hlen : (refreshTimeline st).index.timeline.length < 2 :=
      lt_of_le_of_lt (refreshTimeline_length_le st) h
    unfold checkDiscontinuity checkDiscontinuityS coreCheckDiscontinuity
    by_cases h0 : toIndexTime time (refreshTimeline st).index ≤ 0
    · rw [if_pos h0]
    · rw [if_neg h0, if_pos ?_]
      have : (0 : ℤ) ≤ (getSegmentIndex (refreshTimeline st).index
          (toIndexTime time (refreshTimeline st).index) : ℤ) := Int.ofNat_nonneg _
      omega
  · intro index target h
    rw [getSegmentIndex, h]
    simp [lbLoop]

/-- C10 witness: a concrete instantiation of
`C10_short_timeline_no_discontinuity`. -/
theorem C10_witness :
    checkDiscontinuity stC4 5 = -1 ∧ getSegmentIndex idxEmpty 3 = 0 :=
  ⟨C10_short_timeline_no_discontinuity.1 stC4 5 (by simp [stC4, mkSt, mkIdx]),
    C10_short_timeline_no_discontinuity.2 idxEmpty 3 rfl⟩

/-- C3 (amended): provided the scaled query time is positive and the floor
search lands on a non-last entry with concrete duration, `checkDiscontinuity`
returns the next entry's start converted to seconds iff the gap between the
entry's effective end and the next entry's start is positive, the scaled time
is at or after the entry's start, and the remaining distance to the entry's
end is smaller than one timescale unit — with no upper bound on the scaled
time, so times inside the gap itself also report the discontinuity; in every
other case it returns `-1`. -/
theorem C3_checkDiscontinuity_characterization (st : TimelineRepresentationIndex)
    (time : ℚ) (e next : IIndexSegment)
    (hpos : 0 < toIndexTime time (refreshTimeline st).index)
    (he : (refreshTimeline st).index.timeline.get?
        (getSegmentIndex (refreshTimeline st).index
          (toIndexTime time (refreshTimeline st).index)) = some e)
    (hnext : (refreshTimeline st).index.timeline.get?
        (getSegmentIndex (refreshTimeline st).index
          (toIndexTime time (refreshTimeline st).index) + 1) = some next)
    (hdur : e.duration ≠ -1) :
    checkDiscontinuity st time =
      if getIndexSegmentEnd e (some next) (refreshTimeline st).scaledPeriodEnd <
            next.start ∧
          toIndexTime time (refreshTimeline st).index ≥ e.start ∧
          getIndexSegmentEnd e (some next) (refreshTimeline st).scaledPeriodEnd -
              toIndexTime time (refreshTimeline st).index <
            (refreshTimeline st).index.timescale
      then fromIndexTime next.start (refreshTimeline st).index
      else -1 := by
  obtain ⟨hlt, -⟩ := List.get?_eq_some.mp hnext
  unfold checkDiscontinuity checkDiscontinuityS coreCheckDiscontinuity
  rw [if_neg (not_le.mpr hpos), if_neg ?_, he]
  · simp only []
    rw [if_neg hdur, hnext]
  · rw [not_le]
    have := hlt
    omega

/-- C3 witness: a concrete instantiation of
`C3_checkDiscontinuity_characterization`: at time `4.5`, half a unit before
the end of `[0,5)` with the next entry starting at `20`, the discontinuity is
reported with the next start `20`. -/
theorem C3_witness : checkDiscontinuity stC3w (9 / 2) = 20 := by
  have h := C3_checkDiscontinuity_characterization stC3w (9 / 2) ⟨0, 5, 0⟩ ⟨20, 5, 0⟩
      ?_ ?_ ?_ (by norm_num)
  · rw [h, if_pos]
    · simp [fromIndexTime, stC3w, mkSt, mkIdx, refreshTimeline]
    · refine ⟨?_, ?_, ?_⟩ <;>
        simp [getIndexSegmentEnd, toIndexTime, stC3w, mkSt, mkIdx, refreshTimeline] <;>
        norm_num
  · simp [toIndexTime, stC3w, mkSt, mkIdx, refreshTimeline]
  · simp [stC3w, mkSt, mkIdx, refreshTimeline, getSegmentIndex, toIndexTime, lbLoop]
    norm_num [lbLoop]
  · simp [stC3w, mkSt, mkIdx, refreshTimeline, getSegmentIndex, toIndexTime, lbLoop]
    norm_num [lbLoop]

/-- C3 counterexample: at time `10` — inside the gap `[5, 20)`, hence not
within `[entry.start, entry.end)` as the claim requires — the source still
returns the next entry's start `20` rather than the claimed `-1`: the source
places no upper bound on the query time. -/
theorem C3_counterexample :
    checkDiscontinuity stC3w 10 = 20 ∧
      ¬ toIndexTime 10 stC3w.index < entryEnd ⟨0, 5, 0⟩ ∧ (20 : ℚ) ≠ -1 := by
  refine ⟨?_, ?_, by norm_num⟩
  · simp [checkDiscontinuity, checkDiscontinuityS, coreCheckDiscontinuity, refreshTimeline,
      stC3w, mkSt, mkIdx, toIndexTime, fromIndexTime, getSegmentIndex, lbLoop,
      getIndexSegmentEnd]
    norm_num [lbLoop]
  · simp [toIndexTime, entryEnd, stC3w, mkSt, mkIdx]
    norm_num

/-- In a sorted timeline, entry starts increase strictly with the index. -/
lemma sorted_start_lt {tl : List IIndexSegment} (hs : timelineSorted tl)
    {i j : ℕ} (hij : i < j) (hj : j < tl.length) :
    (tl.getD i default).start < (tl.getD j default).start := by
  have hi : i < tl.length := lt_trans hij hj
  have h := List.pairwise_iff_get.mp hs ⟨i, hi⟩ ⟨j, hj⟩ hij
  rw [List.getD_eq_get?, List.getD_eq_get?, List.get?_eq_get hi, List.get?_eq_get hj]
  exact h

/-- Invariant of the binary-search loop: starting from a window whose left
part satisfies the search predicate and whose right part does not, the loop
returns the boundary between the two. -/
lemma lbLoop_spec (tl : List IIndexSegment) (target : ℚ) (hs : timelineSorted tl) :
    ∀ n low high, high - low ≤ n → high ≤ tl.length → low ≤ high →
      (∀ j, j < low → (tl.getD j default).start < target) →
      (∀ j, high ≤ j → j < tl.length → ¬ (tl.getD j default).start < target) →
      low ≤ lbLoop tl target low high ∧ lbLoop tl target low high ≤ high ∧
        (∀ j, j < lbLoop tl target low high → (tl.getD j default).start < target) ∧
        (∀ j, lbLoop tl target low high ≤ j → j < tl.length →
          ¬ (tl.getD j default).start < target) := by
  intro n
  induction n with
  | zero =>
    intro low high hn hhl hlh hinv1 hinv2
    have hnl : ¬ low < high := by omega
    rw [lbLoop, dif_neg hnl]
    exact ⟨le_refl _, hlh, hinv1, fun j hj hjlen => hinv2 j (by omega) hjlen⟩
  | succ n ih =>
    intro low high hn hhl hlh hinv1 hinv2
    by_cases hcase : low < high
    · rw [lbLoop, dif_pos hcase]
      have hmid1 : low ≤ (low + high) / 2 := by omega
      have hmid2 : (low + high) / 2 < high := by omega
      by_cases hP : (tl.getD ((low + high) / 2) default).start < target
      · rw [if_pos hP]
        have hinv1' : ∀ j, j < (low + high) / 2 + 1 →
            (tl.getD j default).start < target := by
          intro j hj
          rcases Nat.lt_or_ge j low with hjl | hjl
          · exact hinv1 j hjl
          · rcases Nat.lt_or_ge j ((low + high) / 2) with hjm | hjm
            · exact lt_trans (sorted_start_lt hs hjm (lt_of_lt_of_le hmid2 hhl)) hP
            · have hje : j = (low + high) / 2 := by omega
              rw [hje]
              exact hP
        obtain ⟨h1, h2, h3, h4⟩ :=
          ih ((low + high) / 2 + 1) high (by omega) hhl (by omega) hinv1' hinv2
        exact ⟨by omega, h2, h3, h4⟩
      · rw [if_neg hP]
        have hinv2' : ∀ j, (low + high) / 2 ≤ j → j < tl.length →
            ¬ (tl.getD j default).start < target := by
          intro j hj hjlen
          rcases Nat.eq_or_lt_of_le hj with heq | hlt2
          · rw [← heq]
            exact hP
          · intro hcon
            exact hP (lt_trans (sorted_start_lt hs hlt2 hjlen) hcon)
        obtain ⟨h1, h2, h3, h4⟩ :=
          ih low ((low + high) / 2) (by omega) (by omega) (by omega) hinv1 hinv2'
        exact ⟨h1, by omega, h3, h4⟩
    · rw [lbLoop, dif_neg hcase]
      exact ⟨le_refl _, hlh, hinv1, fun j hj hjlen => hinv2 j (by omega) hjlen⟩

/-- C7 (amended): for a sorted timeline, the floor search returns the
greatest index whose entry start is strictly below the target (so an entry
whose start equals the target is not selected), the returned index carries an
entry with start below the target whenever it is positive, and when the
target is at or before every entry's start the search returns `0`. -/
theorem C7_floor_search_characterization (index : ITimelineIndex) (target : ℚ)
    (hs : timelineSorted index.timeline) :
    (∀ j e, index.timeline.get? j = some e → e.start < target →
        j ≤ getSegmentIndex index target) ∧
      (0 < getSegmentIndex index target →
        ∃ e, index.timeline.get? (getSegmentIndex index target) = some e ∧
          e.start < target) ∧
      ((∀ e ∈ index.timeline, ¬ e.start < target) →
        getSegmentIndex index target = 0) := by
  obtain ⟨h1, h2, h3, h4⟩ := lbLoop_spec index.timeline target hs
    index.timeline.length 0 index.timeline.length (by omega) (le_refl _)
    (Nat.zero_le _) (fun j hj => absurd hj (Nat.not_lt_zero j))
    (fun j hj hjlen => absurd hjlen (Nat.not_lt.mpr hj))
  refine ⟨?_, ?_, ?_⟩
  · intro j e hej hjs
    obtain ⟨hjlen, -⟩ := List.get?_eq_some.mp hej
    have hPj : (index.timeline.getD j default).start < target := by
      rw [List.getD_eq_get?, hej]
      exact hjs
    have hjr : j < lbLoop index.timeline target 0 index.timeline.length := by
      by_contra hcon
      exact h4 j (by omega) hjlen hPj
    rw [getSegmentIndex]
    split <;> omega
  · intro hpos
    rw [getSegmentIndex] at hpos ⊢
    by_cases hr : 0 < lbLoop index.timeline target 0 index.timeline.length
    · rw [if_pos hr] at hpos ⊢
      have hlt : lbLoop index.timeline target 0 index.timeline.length - 1 <
          index.timeline.length := by omega
      refine ⟨index.timeline.get ⟨_, hlt⟩, List.get?_eq_get hlt, ?_⟩
      have hP := h3 (lbLoop index.timeline target 0 index.timeline.length - 1) (by omega)
      rw [List.getD_eq_get?, List.get?_eq_get hlt] at hP
      exact hP
    · rw [if_neg hr] at hpos
      omega
  · intro hnone
    rw [getSegmentIndex]
    have hr0 : lbLoop index.timeline target 0 index.timeline.length = 0 := by
      by_contra hcon
      have hpos : 0 < lbLoop index.timeline target 0 index.timeline.length := by omega
      have hP := h3 0 hpos
      have h0len : 0 < index.timeline.length := by omega
      rw [List.getD_eq_get?, List.get?_eq_get h0len] at hP
      exact hnone _ (List.get_mem index.timeline 0 h0len) hP
    rw [hr0]
    simp

/-- C7 witness: a concrete instantiation of
`C7_floor_search_characterization`: a target at or before every entry's
start yields index `0`. -/
theorem C7_witness : getSegmentIndex idxC7 0 = 0 := by
  refine (C7_floor_search_characterization idxC7 0 ?_).2.2 ?_
  · simp [timelineSorted, idxC7, mkIdx]
  · intro e he
    simp [idxC7, mkIdx] at he
    rcases he with h | h <;> rw [h] <;> norm_num

/-- C7 counterexample: with entry starts `0` and `10` and the target exactly
`10`, the greatest index whose start is `≤ 10` is `1`, but the floor search
(a strict lower bound) returns `0` — the claimed maximality over `≤` fails at
ties. -/
theorem C7_counterexample :
    getSegmentIndex idxC7 10 = 0 ∧ idxC7.timeline.get? 1 = some ⟨10, 1, 0⟩ ∧
      (IIndexSegment.mk 10 1 0).start ≤ 10 := by
  refine ⟨?_, rfl, by norm_num⟩
  simp [getSegmentIndex, idxC7, mkIdx, lbLoop]

/-- A fully declared raw entry resolves to itself, whatever the context. -/
lemma fromParsedS_of_goodRaw {r : RawS} (h : goodRaw r)
    (prev : Option IIndexSegment) (next : Option RawS) (s : ℚ) :
    fromParsedSToIndexSegment r prev next s = some (resolveFull r) := by
  obtain ⟨hs, hd, -, -⟩ := h
  obtain ⟨s0, hs0⟩ := Option.isSome_iff_exists.mp hs
  obtain ⟨d0, hd0⟩ := Option.isSome_iff_exists.mp hd
  simp [fromParsedSToIndexSegment, resolveStart, resolveFull, hs0, hd0]

/-- On fully declared raw entries the normalization loop is entrywise
resolution. -/
lemma mkTimelineAux_eq_map {raw : List RawS} (h : ∀ r ∈ raw, goodRaw r)
    (s : ℚ) (prev : Option IIndexSegment) :
    mkTimelineAux s prev raw = raw.map resolveFull := by
  induction raw generalizing prev with
  | nil => rfl
  | cons r rest ih =>
    rw [mkTimelineAux, fromParsedS_of_goodRaw (h r (List.mem_cons_self r rest))]
    simp only [List.map_cons, List.cons.injEq, true_and]
    exact ih (fun x hx => h x (List.mem_cons_of_mem r hx)) (some (resolveFull r))

/-- A well-formed raw entry resolves to an entry whose interval is
non-degenerate. -/
lemma start_lt_entryEnd_of_goodRaw {r : RawS} (h : goodRaw r) :
    (resolveFull r).start < entryEnd (resolveFull r) := by
  obtain ⟨-, -, hd, hrc⟩ := h
  unfold entryEnd resolveFull
  simp only
  nlinarith

/-- For entries with non-degenerate intervals, the chained end-before-start
relation extends to all pairs. -/
lemma chain_pairwise_entryEnd_le {tl : List IIndexSegment}
    (hpos : ∀ e ∈ tl, e.start < entryEnd e)
    (hc : List.Chain' (fun a b => entryEnd a ≤ b.start) tl) :
    List.Pairwise (fun a b => entryEnd a ≤ b.start) tl := by
  induction tl with
  | nil => exact List.Pairwise.nil
  | cons a l ih =>
    have hpl : ∀ e ∈ l, e.start < entryEnd e :=
      fun e he => hpos e (List.mem_cons_of_mem a he)
    have hpair := ih hpl hc.tail
    refine List.Pairwise.cons ?_ hpair
    intro b hb
    cases l with
    | nil => cases hb
    | cons c l2 =>
      have hac : entryEnd a ≤ c.start := (List.chain'_cons.mp hc).1
      rcases List.mem_cons.mp hb with hbc | hb2
      · rw [hbc]
        exact hac
      · have hcb : entryEnd c ≤ b.start := List.rel_of_pairwise_cons hpair hb2
        have hcpos : c.start < entryEnd c :=
          hpos c (List.mem_cons_of_mem a (List.mem_cons_self c l2))
        linarith

/-- C1 (amended): for raw sequences in which every entry declares its start
and a positive duration (and any declared repeat count is non-negative), and
in which each entry's resolved end does not exceed the next entry's declared
start — as in a well-formed manifest — the normalized timeline stored in the
facade's index state is sorted strictly ascending by entry start and its
entries' intervals are pairwise non-overlapping. -/
theorem C1_sorted_nonoverlapping_of_wellFormed (timelineArg : List RawS)
    (timescale : ℚ) (pto : Option ℚ) (indexRange : Option (ℕ × ℕ))
    (initialization : Option InitializationInfo) (mediaURL : String)
    (startNumber : Option ℕ) (periodStart : ℚ) (periodEnd : Option ℚ)
    (isDynamic : Bool) (receivedTime : ℚ) (minimumBound : Option ℚ) (now : ℚ)
    (hgood : ∀ r ∈ timelineArg, goodRaw r)
    (hchain : List.Chain'
      (fun a b => entryEnd (resolveFull a) ≤ (resolveFull b).start) timelineArg) :
    timelineSorted ((mkTimelineRepresentationIndex timelineArg timescale pto
        indexRange initialization mediaURL startNumber periodStart periodEnd
        isDynamic receivedTime minimumBound now).index.timeline) ∧
      timelineNonOverlapping ((mkTimelineRepresentationIndex timelineArg timescale
        pto indexRange initialization mediaURL startNumber periodStart periodEnd
        isDynamic receivedTime minimumBound now).index.timeline) := by
  have htl : (mkTimelineRepresentationIndex timelineArg timescale pto indexRange
      initialization mediaURL startNumber periodStart periodEnd isDynamic
      receivedTime minimumBound now).index.timeline =
      timelineArg.map resolveFull := by
    simp [mkTimelineRepresentationIndex, mkTimeline, mkTimelineAux_eq_map hgood]
  rw [htl]
  have hpos : ∀ e ∈ timelineArg.map resolveFull, e.start < entryEnd e := by
    intro e he
    obtain ⟨r, hr, rfl⟩ := List.mem_map.mp he
    exact start_lt_entryEnd_of_goodRaw (hgood r hr)
  have hchain2 : List.Chain' (fun a b => entryEnd a ≤ b.start)
      (timelineArg.map resolveFull) := (List.chain'_map resolveFull).mpr hchain
  have hpair := chain_pairwise_entryEnd_le hpos hchain2
  constructor
  · refine hpair.imp_of_mem ?_
    intro a b ha hb hab
    have := hpos a ha
    unfold timelineSorted at *
    linarith
  · exact hpair.imp (fun h => Or.inl h)

/-- C1 witness: a concrete instantiation of
`C1_sorted_nonoverlapping_of_wellFormed` on two abutting declared runs. -/
theorem C1_witness :
    timelineSorted ((mkTimelineRepresentationIndex
        [⟨some 0, some 10, some 2⟩, ⟨some 30, some 5, none⟩] 1 none none none ""
        none 0 none false 0 none 0).index.timeline) ∧
      timelineNonOverlapping ((mkTimelineRepresentationIndex
        [⟨some 0, some 10, some 2⟩, ⟨some 30, some 5, none⟩] 1 none none none ""
        none 0 none false 0 none 0).index.timeline) := by
  refine C1_sorted_nonoverlapping_of_wellFormed _ 1 none none none "" none 0 none
      false 0 none 0 ?_ ?_
  · intro r hr
    rcases List.mem_cons.mp hr with h | h
    · rw [h]
      refine ⟨rfl, rfl, ?_, ?_⟩ <;> norm_num
    · rcases List.mem_singleton.mp h with h2
      rw [h2]
      refine ⟨rfl, rfl, ?_, ?_⟩ <;> norm_num
  · refine List.chain'_cons.mpr ⟨?_, List.chain'_singleton _⟩
    simp [entryEnd, resolveFull]
    norm_num

/-- C1 counterexample: the constructor accepts declared out-of-order starts
verbatim, so the raw sequence with starts `10` then `0` yields a normalized
timeline that is not sorted ascending by start — the claimed invariant fails
without a well-formedness assumption on the raw sequence. -/
theorem C1_counterexample :
    (mkTimelineRepresentationIndex [⟨some 10, some 1, none⟩, ⟨some 0, some 1, none⟩]
        1 none none none "" none 0 none false 0 none 0).index.timeline =
      [⟨10, 1, 0⟩, ⟨0, 1, 0⟩] ∧
      ¬ timelineSorted ((mkTimelineRepresentationIndex
        [⟨some 10, some 1, none⟩, ⟨some 0, some 1, none⟩]
        1 none none none "" none 0 none false 0 none 0).index.timeline) := by
  have htl : (mkTimelineRepresentationIndex
      [⟨some 10, some 1, none⟩, ⟨some 0, some 1, none⟩]
      1 none none none "" none 0 none false 0 none 0).index.timeline =
      [⟨10, 1, 0⟩, ⟨0, 1, 0⟩] := by
    simp [mkTimelineRepresentationIndex, mkTimeline, mkTimelineAux,
      fromParsedSToIndexSegment, resolveStart]
  refine ⟨htl, ?_⟩
  rw [htl]
  simp [timelineSorted]
